import Mathlib

/-!
Verification development for the querybuilder repository (Go).

The development shallowly embeds the statement-assembly engine of the
repository: the v2 builder (src/v2/querybuilder.go, the parameterized
`Build` path, the value-setting registry operations and the table-name
interpolator) and the parts of the v1 builder (src/querybuilder.go)
needed for the nil-detection claims (`BuildString` / `BuildDataHelper`
inline nil checks).

Modelling conventions:
* Go `interface{}` values are modelled by the closed inductive `QB.Value`
  covering the comparable scalar kinds the engine normalizes to
  (string, the signed integer widths, bool, float32/float64 carried as
  IEEE bit patterns, byte, and opaque tokens for time.Time and
  decimal.Decimal).  Byte slices and the dhl string wrappers are outside
  every claim considered here and are omitted; pointer wrapping is
  resolved by `realValue` before any decision is taken, so the model
  works on the post-normalization domain on which `getv` is the
  identity.
* Go `==` on interfaces (same dynamic type and equal value) is `goEq`;
  float equality follows IEEE-754 (NaN is unequal to itself, the two
  zeros are equal), every other kind compares structurally.
* machine integers are modelled by `Int`; the build performs no
  arithmetic on values, only decimal formatting, where Go and Lean agree.
* `strconv.FormatFloat` is replaced by the abstract `formatFloatE`; no
  theorem depends on the exact text of a float literal.
-/

set_option autoImplicit false

namespace QB

/-- Scalar values of the engine after `realValue` normalization: the
comparable dynamic kinds a caller-supplied `interface{}` value reduces to.
`vnull` is the nil interface (also the result of normalizing a nil pointer
or nil-valued wrapper). `vtime` and `vdecimal` carry opaque tokens for
`time.Time` and `decimal.Decimal` (Go compares these structs field-wise,
which the injective token models). -/
inductive Value where
  | vnull : Value
  | vstr (s : String) : Value
  | vint (n : Int) : Value
  | vint8 (n : Int) : Value
  | vint16 (n : Int) : Value
  | vint32 (n : Int) : Value
  | vint64 (n : Int) : Value
  | vbool (b : Bool) : Value
  | vfloat32 (bits : Nat) : Value
  | vfloat64 (bits : Nat) : Value
  | vbyte (n : Nat) : Value
  | vtime (t : Nat) : Value
  | vdecimal (d : Nat) : Value
deriving DecidableEq, Repr

/-- Exponent field of an IEEE-754 single-precision bit pattern. -/
def f32Exp (bits : Nat) : Nat := (bits / 2 ^ 23) % 2 ^ 8

/-- Mantissa field of an IEEE-754 single-precision bit pattern. -/
def f32Man (bits : Nat) : Nat := bits % 2 ^ 23

/-- NaN test on a single-precision bit pattern. -/
def f32IsNaN (bits : Nat) : Bool := f32Exp bits == 2 ^ 8 - 1 && f32Man bits != 0

/-- Zero test (either signed zero) on a single-precision bit pattern. -/
def f32IsZero (bits : Nat) : Bool := bits % 2 ^ 31 == 0

/-- Exponent field of an IEEE-754 double-precision bit pattern. -/
def f64Exp (bits : Nat) : Nat := (bits / 2 ^ 52) % 2 ^ 11

/-- Mantissa field of an IEEE-754 double-precision bit pattern. -/
def f64Man (bits : Nat) : Nat := bits % 2 ^ 52

/-- NaN test on a double-precision bit pattern. -/
def f64IsNaN (bits : Nat) : Bool := f64Exp bits == 2 ^ 11 - 1 && f64Man bits != 0

/-- Zero test (either signed zero) on a double-precision bit pattern. -/
def f64IsZero (bits : Nat) : Bool := bits % 2 ^ 63 == 0

/-- IEEE-754 equality of two single-precision bit patterns: NaN compares
unequal to everything, +0 equals -0, all other values are equal exactly
when their (width-reduced) bit patterns coincide. -/
def f32Eq (a b : Nat) : Bool :=
  if f32IsNaN a || f32IsNaN b then false
  else if f32IsZero a && f32IsZero b then true
  else a % 2 ^ 32 == b % 2 ^ 32

/-- IEEE-754 equality of two double-precision bit patterns. -/
def f64Eq (a b : Nat) : Bool :=
  if f64IsNaN a || f64IsNaN b then false
  else if f64IsZero a && f64IsZero b then true
  else a % 2 ^ 64 == b % 2 ^ 64

/-- Go `==` on two interface values: equal dynamic type and equal value;
floats follow IEEE-754 equality, everything else is structural. -/
def goEq (a b : Value) : Bool :=
  match a, b with
  | .vfloat32 x, .vfloat32 y => f32Eq x y
  | .vfloat64 x, .vfloat64 y => f64Eq x y
  | x, y => x == y

/-- The `IsZero` judgement of reflect on the modelled scalar kinds: zero
number, false, empty string, zero bit pattern for floats, zero token for
the opaque struct kinds. -/
def isZeroGo : Value → Bool
  | .vnull => true
  | .vstr s => s == ""
  | .vint n => n == 0
  | .vint8 n => n == 0
  | .vint16 n => n == 0
  | .vint32 n => n == 0
  | .vint64 n => n == 0
  | .vbool b => b == false
  | .vfloat32 bits => f32IsZero bits
  | .vfloat64 bits => f64IsZero bits
  | .vbyte n => n == 0
  | .vtime t => t == 0
  | .vdecimal d => d == 0

/-- The v2 `isNil` check (src/v2/querybuilder.go:729-746): nil interface is
nil; a zero value is only nil when its reflect kind is map, func, pointer,
slice or interface.  None of the modelled scalar kinds is such a kind, so
on this domain every non-null value is non-nil and the guarded `IsNil`
call is never reached. -/
def isNil : Value → Bool
  | .vnull => true
  | _ => false

/-- The v1 `BuildDataHelper` inline nil check (src/querybuilder.go:597-615):
identical to the v2 `isNil` on the scalar domain — its `IsNil` call is
guarded by the same kind test. -/
def bdhValueIsNil : Value → Bool
  | .vnull => true
  | _ => false

/-- The v1 `BuildString` inline nil check (src/querybuilder.go:396-411).
It calls `reflect.Value.IsNil` whenever `IsZero` holds, WITHOUT guarding
the kind; for every non-nilable kind (all the modelled scalar kinds) this
is a runtime panic, modelled as `Except.error`. -/
def bsValueIsNil (v : Value) : Except String Bool :=
  match v with
  | .vnull => .ok true
  | v => if isZeroGo v then .error "reflect: call of reflect.Value.IsNil on non-nilable value" else .ok false

/-- The `getv` unwrapping helper (src/v2/querybuilder.go:770-806)
restricted to the post-normalization domain: every modelled kind is in the
first case list of the Go type switch and is returned as-is. -/
def getv (v : Value) : Value := v

/-- The `realValue` normalizer (src/v2/querybuilder.go:749-768) on the
post-normalization domain: nil stays nil, scalars pass through `getv`. -/
def realValue (v : Value) : Value :=
  if isNil v then .vnull else getv v

/-- CommandType enum (src/v2/querybuilder.go:29-34). -/
inductive CommandType where
  | SELECT : CommandType
  | INSERT : CommandType
  | UPDATE : CommandType
  | DELETE : CommandType
deriving DecidableEq, Repr

/-- Sort enum (named `Sort` in the source; renamed because `Sort` is a
Lean keyword). -/
inductive SortOrder where
  | ASC : SortOrder
  | DESC : SortOrder
deriving DecidableEq, Repr

/-- Limit position enum. -/
inductive LimitPos where
  | FRONT : LimitPos
  | REAR : LimitPos
deriving DecidableEq, Repr

/-- Engine dialect constants (src/v2/querybuilder.go:70-77). -/
structure EngineConstants where
  StringEnclosingChar : String
  StringEscapeChar : String
  ReservedWordEscapeChar : String
  ParameterChar : String
  ParameterInSequence : Bool
  ResultLimitPosition : LimitPos
deriving DecidableEq, Repr

/-- A registered column (src/v2/querybuilder.go:65-68). -/
structure QueryColumn where
  Name : String
  Length : Int
deriving DecidableEq, Repr

/-- A column value entry (src/v2/querybuilder.go:79-87). -/
structure QueryValue where
  column : String
  value : Value
  defvalue : Value
  matchtonull : Value
  sqlstring : Bool
  skip : Bool
  forcenull : Bool
deriving DecidableEq, Repr

/-- A filter entry (src/v2/querybuilder.go:89-93). -/
structure QueryFilter where
  expression : String
  value : Value
  containsvalue : Bool
deriving DecidableEq, Repr

/-- An order-by entry (src/v2/querybuilder.go:95-98). -/
structure QuerySort where
  column : String
  order : SortOrder
deriving DecidableEq, Repr

/-- Build errors (src/v2/querybuilder.go:49-52). -/
inductive BuildErr where
  | noTable : BuildErr
  | noColumn : BuildErr
deriving DecidableEq, Repr

/-- The v2 builder state (src/v2/querybuilder.go:101-119).  `dbInfo` is
not read by `Build` and is omitted.  The source's reference-mode
qualifier field is modelled here under the shorter name `refModePref`. -/
structure QueryBuilder where
  Source : String
  CommandType : CommandType
  Filter : List QueryFilter
  ResultLimit : String
  ParameterOffset : Int
  FilterFunc : Option (Int → String → Bool → List String × List Value)
  referenceMode : Bool
  refModePref : String
  schema : String
  skipNilWriteColumn : Bool
  dbEngineConstants : EngineConstants
  interpolateTables : Bool
  order : List QuerySort
  group : List String
  columns : List QueryColumn
  values : List QueryValue

/-- Default engine constants as produced by `InitConstants nil`
(src/v2/querybuilder.go:173-181). -/
def InitConstantsNil : EngineConstants :=
  { StringEnclosingChar := "\x27"
    StringEscapeChar := "\\"
    ParameterChar := "?"
    ReservedWordEscapeChar := "\""
    ParameterInSequence := false
    ResultLimitPosition := .REAR }

/-! The `Build` algorithm of src/v2/querybuilder.go:449-695, decomposed
into the component functions of its sequential emission.  The Go code
appends to one strings.Builder; each component below produces exactly the
segment the corresponding source block appends, and `rawQuery`
concatenates them in source order. -/

/-- Per-entry normalization with `realValue`
(src/v2/querybuilder.go:457-461). -/
def normValue (v : QueryValue) : QueryValue :=
  { v with value := realValue v.value, defvalue := realValue v.defvalue,
           matchtonull := realValue v.matchtonull }

/-- Filter value normalization (src/v2/querybuilder.go:464-466). -/
def normFilter (f : QueryFilter) : QueryFilter :=
  { f with value := realValue f.value }

/-- Result of the per-entry resolution at the top of the first value loop
(src/v2/querybuilder.go:491-506).  `entry` carries exactly the fields the
source writes back into the slice `qb.values[idx]` (forcenull, sqlstring,
skip); the default-substituted value `eff` and the flag `isnl` live only
in the loop-local copy `v`, which the source never writes back. -/
structure EntryOut where
  entry : QueryValue
  eff : Value
  isnl : Bool

/-- The per-entry resolution: nil test, default substitution into the
loop-local copy, match-to-null detection, skip decision. -/
def resolveEntry (skipNil : Bool) (v : QueryValue) : EntryOut :=
  let isnl0 := isNil v.value
  let subst := isnl0 && !(isNil v.defvalue)
  let eff := if subst then v.defvalue else v.value
  let isnl1 := if subst then false else isnl0
  let force := !isnl1 && !(isNil v.matchtonull) && goEq v.matchtonull eff
  let isnl2 := if force then true else isnl1
  let sql1 := if force then true else v.sqlstring
  let skip1 := skipNil && isnl2
  { entry := { v with forcenull := force, sqlstring := sql1, skip := skip1 }
    eff := eff
    isnl := isnl2 }

/-- Placeholder rendering: the parameter char, suffixed with the next
counter value when the dialect numbers parameters; returns the new
counter (src/v2/querybuilder.go:529-533 and the analogous sites). -/
def renderPlaceholder (ec : EngineConstants) (paramcnt : Int) : String × Int :=
  if ec.ParameterInSequence then (ec.ParameterChar ++ toString (paramcnt + 1), paramcnt + 1)
  else (ec.ParameterChar, paramcnt)

/-- Abstract stand-in for strconv.FormatFloat(_, E, -1, w); no theorem
relies on the exact text of a float literal. -/
def formatFloatE (w : Nat) (bits : Nat) : String :=
  "float" ++ toString w ++ "." ++ toString bits

/-- The raw-fragment rendering of an UPDATE value: the type switch of
src/v2/querybuilder.go:535-552.  Kinds outside the switch append
nothing. -/
def updateLiteral : Value → String
  | .vstr t => t
  | .vint n => toString n
  | .vint64 n => toString n
  | .vbool b => if b then "1" else "0"
  | .vfloat32 bits => formatFloatE 32 bits
  | .vfloat64 bits => formatFloatE 64 bits
  | _ => ""

/-- State threaded through the first value loop
(src/v2/querybuilder.go:486-559): emitted text, pending comma separator,
parameter counter, emitted column count, and the processed entries as
written back into `qb.values`. -/
structure ValueLoopState where
  text : String
  cma : String
  paramcnt : Int
  columncnt : Nat
  acc : List QueryValue

/-- One iteration of the first value loop. -/
def valueLoopStep (ec : EngineConstants) (skipNil : Bool) (cmd : CommandType)
    (st : ValueLoopState) (v : QueryValue) : ValueLoopState :=
  let r := resolveEntry skipNil v
  let st1 := { st with acc := st.acc ++ [r.entry] }
  match cmd with
  | .SELECT =>
      { st1 with text := st.text ++ st.cma ++ v.column, cma := ", ",
                 columncnt := st.columncnt + 1 }
  | .INSERT =>
      if r.entry.skip && !r.entry.forcenull then st1
      else
        { st1 with text := st.text ++ st.cma ++ v.column, cma := ", ",
                   columncnt := st.columncnt + 1 }
  | .UPDATE =>
      if r.entry.skip && !r.entry.forcenull then st1
      else
        let rendered :=
          if r.isnl then ("NULL", st.paramcnt)
          else if v.sqlstring then renderPlaceholder ec st.paramcnt
          else (updateLiteral r.eff, st.paramcnt)
        { st1 with text := st.text ++ st.cma ++ v.column ++ " = " ++ rendered.1,
                   cma := ", ", paramcnt := rendered.2,
                   columncnt := st.columncnt + 1 }
  | .DELETE => st1

/-- The first value loop over the normalized entries. -/
def valueLoop (qb : QueryBuilder) : ValueLoopState :=
  (qb.values.map normValue).foldl
    (valueLoopStep qb.dbEngineConstants qb.skipNilWriteColumn qb.CommandType)
    { text := "", cma := "", paramcnt := qb.ParameterOffset, columncnt := 0, acc := [] }

/-- State of a comma-joined emission (INSERT VALUES list and the filter
clause both use this shape). -/
structure JoinState where
  text : String
  cma : String
  paramcnt : Int

/-- One iteration of the INSERT VALUES loop
(src/v2/querybuilder.go:572-591), reading the persisted entries — note
the persisted `value` still holds the pre-default original.  A
non-sqlstring value is rendered with the comma-ok string assertion, which
yields the empty string for non-string kinds. -/
def insertValueStep (ec : EngineConstants) (st : JoinState) (v : QueryValue) : JoinState :=
  if v.skip && !v.forcenull then st
  else
    let rendered :=
      if !(isNil v.value) && !v.forcenull then
        if !v.sqlstring then
          ((match v.value with | .vstr s => s | _ => ""), st.paramcnt)
        else renderPlaceholder ec st.paramcnt
      else ("NULL", st.paramcnt)
    { text := st.text ++ st.cma ++ rendered.1, cma := ",", paramcnt := rendered.2 }

/-- The INSERT VALUES clause (src/v2/querybuilder.go:567-593).  The source
collects the pieces into a pre-sized array joined with the empty
separator, which is plain concatenation. -/
def insertValuesClause (ec : EngineConstants) (vals : List QueryValue) (paramcnt : Int) :
    String × Int :=
  let st := vals.foldl (insertValueStep ec) { text := "", cma := "", paramcnt := paramcnt }
  (") VALUES (" ++ st.text ++ ")", st.paramcnt)

/-- The INSERT VALUES clause and the counter after it; empty for other
commands. -/
def postInsert (qb : QueryBuilder) : String × Int :=
  if qb.CommandType == .INSERT then
    insertValuesClause qb.dbEngineConstants (valueLoop qb).acc (valueLoop qb).paramcnt
  else ("", (valueLoop qb).paramcnt)

/-- One iteration of the filter loop (src/v2/querybuilder.go:599-614):
present value renders an equality against a placeholder; absent value
renders the bare expression, with an IS NULL suffix unless the filter is
expression-only. -/
def filterStep (ec : EngineConstants) (st : JoinState) (f : QueryFilter) : JoinState :=
  if !(isNil f.value) then
    let ph := renderPlaceholder ec st.paramcnt
    { text := st.text ++ st.cma ++ f.expression ++ " = " ++ ph.1,
      cma := "\r\t\t AND ", paramcnt := ph.2 }
  else
    { text := st.text ++ st.cma ++ f.expression ++ (if !f.containsvalue then " IS NULL" else ""),
      cma := "\r\t\t AND ", paramcnt := st.paramcnt }

/-- The fold over the built-in filters of the filter clause
(src/v2/querybuilder.go:599-614). -/
def filterFold (qb : QueryBuilder) (paramcnt : Int) : JoinState :=
  (qb.Filter.map normFilter).foldl (filterStep qb.dbEngineConstants)
    { text := "", cma := "", paramcnt := paramcnt }

/-- The filter clause (src/v2/querybuilder.go:596-623): the built-in
filter fold followed by the fragments of the first FilterFunc invocation
(whose args are discarded here). -/
def filterClause (qb : QueryBuilder) (paramcnt : Int) : String × Int × Nat :=
  let st := filterFold qb paramcnt
  match qb.FilterFunc with
  | none => (st.text, st.paramcnt, 0)
  | some ff =>
      let fbs := (ff st.paramcnt qb.dbEngineConstants.ParameterChar
        qb.dbEngineConstants.ParameterInSequence).1
      let t2 := (fbs.foldl (fun (acc : String × String) fb =>
        (acc.1 ++ acc.2 ++ fb, "\r\t\t AND ")) (st.text, st.cma)).1
      (t2, st.paramcnt, 1)

/-- Is the command one of SELECT, UPDATE, DELETE (the kinds with a WHERE
section)? -/
def isSUD (cmd : CommandType) : Bool :=
  cmd == .SELECT || cmd == .UPDATE || cmd == .DELETE

/-- The filter section as run by Build: only SELECT/UPDATE/DELETE build
a filter clause (src/v2/querybuilder.go:596). -/
def filterSection (qb : QueryBuilder) : String × Int × Nat :=
  if isSUD qb.CommandType then filterClause qb (postInsert qb).2
  else ("", (postInsert qb).2, 0)

/-- The WHERE fragment: emitted exactly when the filter-clause text is
non-empty (src/v2/querybuilder.go:624-626). -/
def whereClause (qb : QueryBuilder) : String :=
  if (filterSection qb).1 != "" then "\r\t WHERE " ++ (filterSection qb).1 else ""

/-- The ORDER BY fragment (src/v2/querybuilder.go:630-642). -/
def orderClause (order : List QuerySort) : String :=
  if order.isEmpty then ""
  else " ORDER BY " ++ (order.foldl (fun (acc : String × String) v =>
    (acc.1 ++ acc.2 ++ v.column ++ (if v.order == .ASC then " ASC" else " DESC"), ", "))
    ("", "")).1

/-- The GROUP BY fragment (src/v2/querybuilder.go:644-646). -/
def groupClause (group : List String) : String :=
  if group.isEmpty then "" else " GROUP BY " ++ String.intercalate ", " group

/-- The front (TOP) limit fragment inside a SELECT header
(src/v2/querybuilder.go:474-476). -/
def frontLimit (ec : EngineConstants) (lim : String) : String :=
  if lim.length > 0 && ec.ResultLimitPosition == .FRONT then " TOP " ++ lim ++ " " else ""

/-- The rear (LIMIT) fragment (src/v2/querybuilder.go:647-649). -/
def rearLimit (ec : EngineConstants) (lim : String) : String :=
  if lim.length > 0 && ec.ResultLimitPosition == .REAR then " LIMIT " ++ lim else ""

/-- The statement header per command kind (src/v2/querybuilder.go:471-483,
including the carriage return the source embeds before FROM in DELETE). -/
def header (cmd : CommandType) (tbn : String) (ec : EngineConstants) (lim : String) : String :=
  match cmd with
  | .SELECT => "SELECT " ++ frontLimit ec lim
  | .INSERT => "INSERT INTO " ++ tbn ++ " ("
  | .UPDATE => "UPDATE " ++ tbn ++ " SET "
  | .DELETE => "DELETE \rFROM " ++ tbn

/-- Argument contribution of one processed entry
(src/v2/querybuilder.go:654-663): skipped, raw-fragment, non-write-command,
nil-valued and forced-null entries contribute nothing.  The persisted
`value` is the pre-default original. -/
def valueArg (cmd : CommandType) (v : QueryValue) : List Value :=
  if v.skip || !v.sqlstring || !(cmd == .INSERT || cmd == .UPDATE) || isNil v.value || v.forcenull
  then [] else [v.value]

/-- Argument contribution of one filter (src/v2/querybuilder.go:665-669). -/
def filterArg (cmd : CommandType) (f : QueryFilter) : List Value :=
  if (cmd == .SELECT || cmd == .UPDATE || cmd == .DELETE) && !(isNil f.value)
  then [f.value] else []

/-- The second FilterFunc invocation (src/v2/querybuilder.go:670-675),
made whenever the callback is set, for any command kind; its args are
appended only when it returned at least one fragment.  Returns the args
and the invocations made. -/
def funcArgs (qb : QueryBuilder) (paramcnt : Int) : List Value × Nat :=
  match qb.FilterFunc with
  | none => ([], 0)
  | some ff =>
      let r := ff paramcnt qb.dbEngineConstants.ParameterChar
        qb.dbEngineConstants.ParameterInSequence
      (if r.1.length > 0 then r.2 else [], 1)

/-- Character class of an interpolation token
(the regular expression class of src/v2/querybuilder.go:824): ASCII
letters, digits, square brackets, double quote, underscore, hyphen. -/
def isTokenChar (c : Char) : Bool :=
  (97 ≤ c.toNat && c.toNat ≤ 122) || (65 ≤ c.toNat && c.toNat ≤ 90) ||
  (48 ≤ c.toNat && c.toNat ≤ 57) ||
  c == '[' || c == ']' || c == '"' || c == '_' || c == '-'

/-- Token-body reader: a run of token characters terminated by a closing
brace; returns the run and the remainder.  This is the match attempt of
the anchored regular expression at an opening brace: the character class
excludes both braces, so the greedy run ends at the first non-class
character, which must be the closing brace for a match. -/
def tryToken : List Char → Option (List Char × List Char)
  | [] => none
  | c :: rest =>
      if c = '\x7d' then some ([], rest)
      else if isTokenChar c then
        match tryToken rest with
        | some r => some (c :: r.1, r.2)
        | none => none
      else none

/-- Character class of a replacement-template variable name (Go regexp
Expand, src/regexp/regexp.go extract): letters, digits, underscore.
Modelled for ASCII text; Go additionally admits non-ASCII Unicode
letters, which none of the statements below exercises. -/
def isNameChar (c : Char) : Bool :=
  (97 ≤ c.toNat && c.toNat ≤ 122) || (65 ≤ c.toNat && c.toNat ≤ 90) ||
  (48 ≤ c.toNat && c.toNat ≤ 57) || c == '_'

/-- Longest-run split at the front of the list: the leading run of name
characters and the remainder. -/
def nameRun : List Char → List Char × List Char
  | [] => ([], [])
  | c :: rest =>
      if isNameChar c then
        let r := nameRun rest
        (c :: r.1, r.2)
      else ([], c :: rest)

/-- Go's template-reference extraction after a dollar sign (regexp
extract): a brace-delimited or bare non-empty run of name characters;
returns the name and the remaining template, or none when malformed. -/
def extractRef : List Char → Option (List Char × List Char)
  | [] => none
  | '\x7b' :: rest =>
      match nameRun rest with
      | ([], _) => none
      | (name, rest2) =>
          match rest2 with
          | '\x7d' :: rest3 => some (name, rest3)
          | _ => none
  | l =>
      match nameRun l with
      | ([], _) => none
      | (name, rest) => some (name, rest)

/-- The text a template reference expands to for the interpolation
pattern, which has exactly one unnamed capture group: the name `0` is
the whole match, the name `1` is the token body, and every other
reference (a non-numeric name, since the pattern names no groups; a
group number out of range; a digit run with a leading zero or mixed
with letters, which Go parses as no number and then fails the name
lookup) expands to the empty string. -/
def refText (g0 g1 name : List Char) : List Char :=
  if name = ['0'] then g0 else if name = ['1'] then g1 else []

/-- Go's replacement-template expansion (regexp Regexp.expand), applied
once per match: literal text is copied; a double dollar emits one
dollar; a dollar followed by a valid reference substitutes that group's
text; a dollar followed by no valid reference stays literal.
Structurally recursive on a fuel bound; each step consumes at least one
template character, so fuel equal to the template length is adequate. -/
def expandTemplateF (g0 g1 : List Char) : Nat → List Char → List Char
  | 0, l => l
  | _ + 1, [] => []
  | fuel + 1, c :: rest =>
      if c = '$' then
        match rest with
        | c2 :: rest2 =>
            if c2 = '$' then '$' :: expandTemplateF g0 g1 fuel rest2
            else
              match extractRef rest with
              | some nr => refText g0 g1 nr.1 ++ expandTemplateF g0 g1 fuel nr.2
              | none => '$' :: expandTemplateF g0 g1 fuel rest
        | [] => '$' :: expandTemplateF g0 g1 fuel []
      else c :: expandTemplateF g0 g1 fuel rest

/-- Template expansion with adequate fuel. -/
def expandTemplate (g0 g1 t : List Char) : List Char := expandTemplateF g0 g1 t.length t

/-- The replace-all scan of the interpolation regular expression,
structurally recursive on a fuel bound (so that it evaluates by kernel
reduction): each leftmost token is replaced by the expansion of the
replacement template `q` with group 0 bound to the whole match and
group 1 to the token body, and scanning resumes after the match
(non-overlapping, as ReplaceAllString does).  The fuel case 0 is never
reached when the fuel bounds the input length, since every recursive
call shortens the input. -/
def interpCoreF (q : List Char) : Nat → List Char → List Char
  | 0, l => l
  | _ + 1, [] => []
  | fuel + 1, c :: rest =>
      if c = '\x7b' then
        match tryToken rest with
        | some r =>
            expandTemplate ('\x7b' :: r.1 ++ ['\x7d']) r.1 q ++ interpCoreF q fuel r.2
        | none => c :: interpCoreF q fuel rest
      else c :: interpCoreF q fuel rest

/-- The replace-all scan with adequate fuel. -/
def interpCore (q l : List Char) : List Char := interpCoreF q l.length l

/-- Does the character list contain a run of token characters closed by a
brace (the remainder of a regular-expression match attempt)? -/
def checkRun : List Char → Bool
  | [] => false
  | c :: rest => if c = '\x7d' then true else if isTokenChar c then checkRun rest else false

/-- Does the character list contain a brace-delimited token anywhere? -/
def containsToken : List Char → Bool
  | [] => false
  | c :: rest => (if c = '\x7b' then checkRun rest else false) || containsToken rest

/-- The replacement text placed before a token body: the schema followed
by a dot when the schema is non-empty, nothing otherwise
(src/v2/querybuilder.go:821-823). -/
def qualPref (schema : String) : String :=
  if schema != "" then schema ++ "." else ""

/-- The replacement template ReplaceAllString expands at every match
(src/v2/querybuilder.go:825): the dot-suffixed qualifier followed by a
reference to capture group 1.  A dollar sign inside the qualifier is
template syntax and is itself expanded. -/
def templateOf (schema : String) : List Char :=
  (qualPref schema).data ++ ['$', '1']

/-- InterpolateTable (src/v2/querybuilder.go:820-826): replace each
brace-delimited token by the expansion of the replacement template
built from the schema. -/
def InterpolateTable (sql : String) (schema : String) : String :=
  ⟨interpCore (templateOf schema) sql.data⟩

/-- Does the string end with an underscore (strings.HasSuffix of
src/v2/querybuilder.go:682)? -/
def endsWithUnderscore (s : String) : Bool :=
  match s.data.getLast? with
  | some c => c == '_'
  | none => false

/-- Qualifier resolution before interpolation
(src/v2/querybuilder.go:679-689): reference mode contributes the
underscore-suffixed prefix, and an explicit schema prevails. -/
def schemaFor (qb : QueryBuilder) : String :=
  let sch := if qb.referenceMode then
      (if endsWithUnderscore qb.refModePref then qb.refModePref else qb.refModePref ++ "_")
    else ""
  if qb.schema != "" then qb.schema else sch

/-- The full statement text before interpolation, concatenated in the
source's emission order. -/
def rawQuery (qb : QueryBuilder) : String :=
  header qb.CommandType qb.Source qb.dbEngineConstants qb.ResultLimit
  ++ (valueLoop qb).text
  ++ (if qb.CommandType == .SELECT then " \rFROM " ++ qb.Source else "")
  ++ (postInsert qb).1
  ++ whereClause qb
  ++ orderClause qb.order
  ++ groupClause qb.group
  ++ rearLimit qb.dbEngineConstants qb.ResultLimit
  ++ ";"

/-- The argument list (src/v2/querybuilder.go:652-675): processed column
values, then filter values, then the external callback's args; also
returns the callback invocations made while collecting. -/
def collectArgs (qb : QueryBuilder) : List Value × Nat :=
  let colArgs := ((valueLoop qb).acc.map (valueArg qb.CommandType)).flatten
  let fArgs := ((qb.Filter.map normFilter).map (filterArg qb.CommandType)).flatten
  let ex := funcArgs qb (filterSection qb).2.1
  (colArgs ++ fArgs ++ ex.1, ex.2)

/-- The outcome of one Build call, instrumented with the persisted
parameter offset and the number of FilterFunc invocations. -/
structure BuildOut where
  query : String
  args : List Value
  err : Option BuildErr
  paramOffset : Int
  filterFuncCalls : Nat

/-- The instrumented Build (src/v2/querybuilder.go:449-695). -/
def BuildI (qb : QueryBuilder) : BuildOut :=
  if qb.Source = "" then
    { query := "", args := [], err := some .noTable,
      paramOffset := qb.ParameterOffset, filterFuncCalls := 0 }
  else if qb.columns.length = 0 ∧ qb.CommandType ≠ .DELETE then
    { query := "", args := [], err := some .noColumn,
      paramOffset := qb.ParameterOffset, filterFuncCalls := 0 }
  else
    let q0 := rawQuery qb
    let q := if qb.interpolateTables then InterpolateTable q0 (schemaFor qb) else q0
    { query := q
      args := (collectArgs qb).1
      err := none
      paramOffset := (filterSection qb).2.1
      filterFuncCalls := (filterSection qb).2.2 + (collectArgs qb).2 }

/-- Build as observed by callers: (query, args, err). -/
def Build (qb : QueryBuilder) : String × List Value × Option BuildErr :=
  ((BuildI qb).query, (BuildI qb).args, (BuildI qb).err)

/-- ASCII lower-case code of a character (the case folding relevant to
the identifier names the builder compares). -/
def lowerNat (c : Char) : Nat :=
  if 65 ≤ c.toNat ∧ c.toNat ≤ 90 then c.toNat + 32 else c.toNat

/-- Case-insensitive name comparison: strings.EqualFold, modelled by
ASCII lower-case folding (the names the builder compares are ASCII
identifiers). -/
def eqFold (a b : String) : Bool := a.data.map lowerNat == b.data.map lowerNat

/-- The value-registry update of the internal setColumnValue
(src/v2/querybuilder.go:708-727): look the column name up
case-insensitively among the value entries; update the first match in
place (keeping its stored casing and its skip/forcenull flags), else
append a fresh entry whose unnamed fields take the Go zero values. -/
def setColumnValueCore (cname : String) (value : Value) (sqlString : Bool)
    (defValue matchToNull : Value) : List QueryValue → List QueryValue
  | [] =>
      [{ column := cname
         value := value
         defvalue := defValue
         matchtonull := matchToNull
         sqlstring := sqlString
         skip := false
         forcenull := false }]
  | v :: rest =>
      if eqFold cname v.column then
        { v with sqlstring := sqlString
                 defvalue := defValue
                 matchtonull := matchToNull
                 value := value } :: rest
      else v :: setColumnValueCore cname value sqlString defValue matchToNull rest

/-- The internal setColumnValue on the builder, addressed by column index
exactly as in the source (every internal call site passes an index
returned by addColumn, hence in range). -/
def setColumnValue (qb : QueryBuilder) (index : Nat) (value : Value) (sqlString : Bool)
    (defValue matchToNull : Value) : QueryBuilder :=
  let cname := (qb.columns.getD index ⟨"", 0⟩).Name
  { qb with values := setColumnValueCore cname value sqlString defValue matchToNull qb.values }

/-- The effective value of an entry: the default substituted for an
absent value — the loop-local value after src/v2/querybuilder.go:495-498. -/
def effValue (v : QueryValue) : Value :=
  if isNil v.value && !(isNil v.defvalue) then v.defvalue else v.value

/-- Occurrences of a character in a string (used to count placeholder
tokens in a concrete built statement). -/
def countChar (s : String) (c : Char) : Nat := s.data.count c

/-- Does the modelled computation fault (a reflect panic in the source)? -/
def isFault (e : Except String Bool) : Bool :=
  match e with
  | .error _ => true
  | .ok _ => false

/-- The builder produced by New with its defaults
(src/v2/querybuilder.go:134-150). -/
def NewQB : QueryBuilder :=
  { Source := ""
    CommandType := .SELECT
    Filter := []
    ResultLimit := ""
    ParameterOffset := 0
    FilterFunc := none
    referenceMode := false
    refModePref := "ref"
    schema := ""
    skipNilWriteColumn := true
    dbEngineConstants := InitConstantsNil
    interpolateTables := true
    order := []
    group := []
    columns := []
    values := [] }

/-- A parameterized value entry as AddValue registers it (value plus
options, all remaining fields at their Go zero values). -/
def mkVal (c : String) (v : Value) : QueryValue :=
  { column := c
    value := v
    defvalue := .vnull
    matchtonull := .vnull
    sqlstring := true
    skip := false
    forcenull := false }

/-- Concrete input for the C1 misalignment: an UPDATE of one
parameterized column whose value is absent and whose default is set. -/
def c1UpdateQB : QueryBuilder :=
  { NewQB with
    Source := "t"
    CommandType := .UPDATE
    columns := [{ Name := "b", Length := 8000 }]
    values := [{ mkVal "b" .vnull with defvalue := .vint 5 }] }

/-- Concrete input for the C2 default-substitution claim: an INSERT of
one parameterized column with absent value and a string default. -/
def c2InsertQB : QueryBuilder :=
  { NewQB with
    Source := "users"
    CommandType := .INSERT
    columns := [{ Name := "a", Length := 8000 }]
    values := [{ mkVal "a" .vnull with defvalue := .vstr "x" }] }

/-- The same spec as an UPDATE. -/
def c2UpdateQB : QueryBuilder :=
  { c2InsertQB with CommandType := .UPDATE }

/-- Concrete builder with an empty source (C4). -/
def c4NoSourceQB : QueryBuilder :=
  { NewQB with CommandType := .UPDATE }

/-- Concrete builder with a source but no columns (C4). -/
def c4NoColumnQB : QueryBuilder :=
  { NewQB with Source := "t" }

/-- Concrete SELECT with an external filter callback (C6). -/
def c6SelectQB : QueryBuilder :=
  { NewQB with
    Source := "t"
    columns := [{ Name := "a", Length := 255 }]
    values := [mkVal "a" (.vint 1)]
    FilterFunc := some (fun _ _ _ => (["x = 1"], [.vint 9])) }

/-- Concrete SELECT without a callback (C6 witness). -/
def c6NoFuncQB : QueryBuilder :=
  { NewQB with
    Source := "t"
    columns := [{ Name := "a", Length := 255 }]
    values := [mkVal "a" (.vint 1)] }

/-- Concrete DELETE whose filter list holds one expression-only filter
with an empty expression (C8). -/
def c8DeleteQB : QueryBuilder :=
  { NewQB with
    Source := "t"
    CommandType := .DELETE
    Filter := [{ expression := "", value := .vnull, containsvalue := true }] }

/-- Concrete DELETE with registered columns and values (C8 witness). -/
def c8DeleteFullQB : QueryBuilder :=
  { NewQB with
    Source := "t"
    CommandType := .DELETE
    columns := [{ Name := "a", Length := 255 }]
    values := [mkVal "a" (.vint 1)]
    Filter := [{ expression := "Id", value := .vint 3, containsvalue := false }] }

/-- Concrete INSERT carrying filters and a callback (C8 witness). -/
def c8InsertQB : QueryBuilder :=
  { NewQB with
    Source := "t"
    CommandType := .INSERT
    columns := [{ Name := "a", Length := 255 }]
    values := [mkVal "a" (.vint 1)]
    Filter := [{ expression := "Id", value := .vint 3, containsvalue := false }]
    FilterFunc := some (fun _ _ _ => (["x = 1"], [.vint 9])) }

/-- Concrete SELECT with one valued filter (C8 witness). -/
def c8SelectQB : QueryBuilder :=
  { NewQB with
    Source := "t"
    columns := [{ Name := "a", Length := 255 }]
    values := [mkVal "a" (.vint 1)]
    Filter := [{ expression := "Id", value := .vint 3, containsvalue := false }] }

/-- Concrete SELECT with neither filters nor a callback (C8 witness). -/
def c8NoFilterQB : QueryBuilder :=
  { NewQB with
    Source := "t"
    columns := [{ Name := "a", Length := 255 }]
    values := [mkVal "a" (.vint 1)] }

/-- Concrete SELECT whose only WHERE contribution is a callback fragment
(C8 witness). -/
def c8CallbackQB : QueryBuilder :=
  { NewQB with
    Source := "t"
    columns := [{ Name := "a", Length := 255 }]
    values := [mkVal "a" (.vint 1)]
    FilterFunc := some (fun _ _ _ => (["x = 1"], [.vint 9])) }

/-- Concrete entry whose value equals its match-to-null sentinel (C3
witness). -/
def c3Entry : QueryValue :=
  { mkVal "a" (.vstr "zap") with matchtonull := .vstr "zap" }

/-- Concrete value-loop state (C3 witness). -/
def c3St : ValueLoopState :=
  { text := "", cma := "", paramcnt := 0, columncnt := 0, acc := [] }

/-- Concrete join state (C3 witness). -/
def c3Stj : JoinState := { text := "", cma := "", paramcnt := 0 }

/-- Concrete join state (C5 witness). -/
def c5St : JoinState := { text := "", cma := "", paramcnt := 0 }

/-- Concrete expression-only filter (C5 witness). -/
def c5ExpFilter : QueryFilter :=
  { expression := "a=1", value := .vnull, containsvalue := true }

/-- Concrete filter with a present value (C5 witness). -/
def c5ValFilter : QueryFilter :=
  { expression := "Id", value := .vint 3, containsvalue := false }

/-- Concrete filter with an absent value (C5 witness). -/
def c5NullFilter : QueryFilter :=
  { expression := "Del", value := .vnull, containsvalue := false }

/-! Theorems. -/

/-- C1: the claim that the number of placeholders in the built text
always equals the number of collected arguments fails on the code: for an
UPDATE whose parameterized column has an absent value and a set default,
the SET clause renders a placeholder (the loop-local copy received the
default) while the argument pass reads the untouched stored value, sees
it absent and collects nothing — one placeholder, zero arguments. -/
theorem C1_update_default_placeholder_without_arg :
    Build c1UpdateQB = ("UPDATE t SET b = ?;", [], none) ∧
    countChar (Build c1UpdateQB).1 '?' = 1 ∧
    (Build c1UpdateQB).2.1.length = 0 := by decide

/-- C2: the claim that a column with absent value and a set default
renders using the default for all downstream steps fails on the code:
the default is substituted only into the loop-local copy
(src/v2/querybuilder.go:496), so the INSERT VALUES clause — which rereads
the stored entries — renders NULL instead of the default, and the
argument pass collects nothing for either command kind. -/
theorem C2_default_not_substituted_downstream :
    Build c2InsertQB = ("INSERT INTO users (a) VALUES (NULL);", [], none) ∧
    Build c2UpdateQB = ("UPDATE users SET a = ?;", [], none) := by decide

/-- C10: zero values of the non-nilable scalar kinds (0, false, the empty
string, a zero float) are classified as present by the guarded v2 `isNil`
and by the guarded v1 BuildDataHelper check, but the v1 BuildString check
calls reflect.Value.IsNil on them without a kind guard, which is a
runtime panic — the literal-string path faults exactly on these inputs
(non-zero scalars pass). -/
theorem C10_zero_scalar_nil_detection :
    (isNil (.vint 0) = false ∧ isNil (.vint8 0) = false ∧ isNil (.vint16 0) = false ∧
     isNil (.vint32 0) = false ∧ isNil (.vint64 0) = false ∧ isNil (.vbool false) = false ∧
     isNil (.vstr "") = false ∧ isNil (.vfloat32 0) = false ∧ isNil (.vfloat64 0) = false) ∧
    (bdhValueIsNil (.vint 0) = false ∧ bdhValueIsNil (.vbool false) = false ∧
     bdhValueIsNil (.vstr "") = false ∧ bdhValueIsNil (.vfloat64 0) = false) ∧
    (isFault (bsValueIsNil (.vint 0)) = true ∧ isFault (bsValueIsNil (.vbool false)) = true ∧
     isFault (bsValueIsNil (.vstr "")) = true ∧ isFault (bsValueIsNil (.vfloat64 0)) = true) ∧
    (isFault (bsValueIsNil (.vint 1)) = false ∧ isFault (bsValueIsNil (.vstr "x")) = false) := by
  decide

/-- C6 counterexample: the claim that the external filter callback is
invoked at most once per build fails — a SELECT build with a callback set
invokes it twice (once for the WHERE fragments, once for the args). -/
theorem C6_callback_invoked_twice :
    (BuildI c6SelectQB).filterFuncCalls = 2 ∧
    ¬ ((BuildI c6SelectQB).filterFuncCalls ≤ 1) := by decide

/-- C8 counterexample: the claim that SELECT/UPDATE/DELETE emit a WHERE
clause exactly when the filter list is non-empty fails — a DELETE whose
only filter is expression-only with an empty expression renders an empty
filter text, and no WHERE clause is emitted. -/
theorem C8_where_missing_with_nonempty_filter_list :
    c8DeleteQB.Filter.length = 1 ∧ whereClause c8DeleteQB = "" ∧
    Build c8DeleteQB = ("DELETE \rFROM t;", [], none) := by decide

/-- C4: an empty source fails the build with the no-source error and an
empty text and argument list; a non-DELETE build with no registered
columns fails with the no-columns error likewise.  Both are explicit
error returns of the total function `Build`, decided before any emission
(the returned text is empty). -/
theorem C4_validation_failfast (qb : QueryBuilder) :
    (qb.Source = "" → Build qb = ("", [], some .noTable)) ∧
    (qb.Source ≠ "" → qb.columns = [] → qb.CommandType ≠ .DELETE →
      Build qb = ("", [], some .noColumn)) := by
  constructor
  · intro h
    simp [Build, BuildI, h]
  · intro h1 h2 h3
    simp [Build, BuildI, h1, h2, h3]

/-- C4 witness: the validation theorem applied to a concrete sourceless
builder and a concrete columnless SELECT builder. -/
theorem C4_validation_failfast_witness :
    Build c4NoSourceQB = ("", [], some .noTable) ∧
    Build c4NoColumnQB = ("", [], some .noColumn) :=
  ⟨(C4_validation_failfast c4NoSourceQB).1 rfl,
   (C4_validation_failfast c4NoColumnQB).2 (by decide) rfl (by decide)⟩

/-- C3: a column whose effective value (after default substitution)
equals its configured match-to-null sentinel is rendered by INSERT and
UPDATE as the literal text NULL, contributes no entry to the argument
list, and is never omitted from the column/SET list, whatever the
skip-nil policy. -/
theorem C3_match_to_null_forces_literal_null (ec : EngineConstants) (skipNil : Bool)
    (v : QueryValue) (stv : ValueLoopState) (stj : JoinState)
    (hm : isNil v.matchtonull = false)
    (hne : isNil (effValue v) = false)
    (heq : goEq v.matchtonull (effValue v) = true) :
    (valueLoopStep ec skipNil .INSERT stv v).text = stv.text ++ stv.cma ++ v.column ∧
    (valueLoopStep ec skipNil .UPDATE stv v).text
      = stv.text ++ stv.cma ++ v.column ++ " = " ++ "NULL" ∧
    (insertValueStep ec stj (resolveEntry skipNil v).entry).text
      = stj.text ++ stj.cma ++ "NULL" ∧
    valueArg .INSERT (resolveEntry skipNil v).entry = [] ∧
    valueArg .UPDATE (resolveEntry skipNil v).entry = [] := by
  have key : resolveEntry skipNil v
      = { entry := { v with forcenull := true, sqlstring := true, skip := skipNil }
          eff := effValue v
          isnl := true } := by
    unfold resolveEntry
    cases h0 : isNil v.value with
    | false =>
        have he : effValue v = v.value := by simp [effValue, h0]
        rw [he] at heq
        simp [h0, hm, heq, effValue]
    | true =>
        cases hd : isNil v.defvalue with
        | true =>
            have he : effValue v = v.value := by simp [effValue, h0, hd]
            rw [he, h0] at hne
            exact absurd hne (by simp)
        | false =>
            have he : effValue v = v.defvalue := by simp [effValue, h0, hd]
            rw [he] at heq
            simp [h0, hd, hm, heq, effValue]
  refine ⟨?_, ?_, ?_, ?_, ?_⟩
  · simp [valueLoopStep, key]
  · simp [valueLoopStep, key]
  · simp [insertValueStep, key]
  · simp [valueArg, key]
  · simp [valueArg, key]

/-- C3 witness: the match-to-null theorem applied to a concrete entry
whose string value equals its sentinel, under the enabled skip-nil
policy. -/
theorem C3_match_to_null_forces_literal_null_witness :
    (valueLoopStep InitConstantsNil true .INSERT c3St c3Entry).text = "" ++ "" ++ "a" ∧
    (valueLoopStep InitConstantsNil true .UPDATE c3St c3Entry).text
      = "" ++ "" ++ "a" ++ " = " ++ "NULL" ∧
    (insertValueStep InitConstantsNil c3Stj (resolveEntry true c3Entry).entry).text
      = "" ++ "" ++ "NULL" ∧
    valueArg .INSERT (resolveEntry true c3Entry).entry = [] ∧
    valueArg .UPDATE (resolveEntry true c3Entry).entry = [] :=
  C3_match_to_null_forces_literal_null InitConstantsNil true c3Entry c3St c3Stj
    (by decide) (by decide) (by decide)

/-- C5: a filter of a SELECT/UPDATE/DELETE build renders as the bare
expression when it is expression-only (no comparison, no NULL check and
no argument), as the expression compared to a placeholder plus exactly
its value as argument when its value is present, and as the expression
followed by IS NULL with no argument when its value is absent.  The
hypothesis records the registry invariant that expression-only filters
carry no value (the only constructor of such filters stores nil). -/
theorem C5_filter_rendering (ec : EngineConstants) (st : JoinState) (cmd : CommandType)
    (f : QueryFilter)
    (hcmd : isSUD cmd = true)
    (hinv : f.containsvalue = true → isNil f.value = true) :
    (f.containsvalue = true →
      (filterStep ec st f).text = st.text ++ st.cma ++ f.expression ∧
      filterArg cmd f = []) ∧
    (isNil f.value = false →
      (filterStep ec st f).text
        = st.text ++ st.cma ++ f.expression ++ " = " ++ (renderPlaceholder ec st.paramcnt).1 ∧
      filterArg cmd f = [f.value]) ∧
    (f.containsvalue = false → isNil f.value = true →
      (filterStep ec st f).text = st.text ++ st.cma ++ f.expression ++ " IS NULL" ∧
      filterArg cmd f = []) := by
  simp only [isSUD] at hcmd
  refine ⟨?_, ?_, ?_⟩
  · intro hc
    have hv := hinv hc
    constructor
    · simp [filterStep, hv, hc]
    · simp [filterArg, hv]
  · intro hv
    constructor
    · simp [filterStep, hv]
    · simp [filterArg, hv, hcmd]
  · intro hc hv
    constructor
    · simp [filterStep, hv, hc]
    · simp [filterArg, hv]

/-- C5 witness: the filter-rendering theorem applied to three concrete
filters of a SELECT build — expression-only, valued, and absent-valued. -/
theorem C5_filter_rendering_witness :
    ((filterStep InitConstantsNil c5St c5ExpFilter).text = "" ++ "" ++ "a=1" ∧
      filterArg .SELECT c5ExpFilter = []) ∧
    ((filterStep InitConstantsNil c5St c5ValFilter).text
        = "" ++ "" ++ "Id" ++ " = " ++ (renderPlaceholder InitConstantsNil 0).1 ∧
      filterArg .SELECT c5ValFilter = [.vint 3]) ∧
    ((filterStep InitConstantsNil c5St c5NullFilter).text = "" ++ "" ++ "Del" ++ " IS NULL" ∧
      filterArg .SELECT c5NullFilter = []) :=
  ⟨(C5_filter_rendering InitConstantsNil c5St .SELECT c5ExpFilter (by decide)
      (fun _ => by decide)).1 rfl,
   (C5_filter_rendering InitConstantsNil c5St .SELECT c5ValFilter (by decide)
      (fun h => absurd h (by decide))).2.1 rfl,
   (C5_filter_rendering InitConstantsNil c5St .SELECT c5NullFilter (by decide)
      (fun _ => by decide)).2.2 rfl rfl⟩

/-- C6 (amended): the external filter callback is invoked at most twice
per build — never when unset, and exactly twice (once for the WHERE
fragments and once for the args) when set on a SELECT/UPDATE/DELETE
build that passes validation. -/
theorem C6_callback_invocation_count (qb : QueryBuilder) :
    (BuildI qb).filterFuncCalls ≤ 2 ∧
    (qb.FilterFunc = none → (BuildI qb).filterFuncCalls = 0) ∧
    ((BuildI qb).err = none → qb.FilterFunc ≠ none → isSUD qb.CommandType = true →
      (BuildI qb).filterFuncCalls = 2) := by
  have hfs : (filterSection qb).2.2
      = if qb.FilterFunc.isSome = true ∧ isSUD qb.CommandType = true then 1 else 0 := by
    cases hf : qb.FilterFunc <;> cases hs : isSUD qb.CommandType <;>
      simp [filterSection, filterClause, hf, hs]
  have hca : (collectArgs qb).2 = if qb.FilterFunc.isSome = true then 1 else 0 := by
    cases hf : qb.FilterFunc <;> simp [collectArgs, funcArgs, hf]
  by_cases h1 : qb.Source = ""
  · refine ⟨?_, ?_, ?_⟩ <;> simp [BuildI, h1]
  · by_cases h2 : qb.columns.length = 0 ∧ qb.CommandType ≠ .DELETE
    · refine ⟨?_, ?_, ?_⟩ <;> simp [BuildI, h1, h2]
    · have h2x : ¬(qb.columns = [] ∧ qb.CommandType ≠ .DELETE) := by
        simpa [List.length_eq_zero] using h2
      have hcalls : (BuildI qb).filterFuncCalls
          = (filterSection qb).2.2 + (collectArgs qb).2 := by
        simp [BuildI, h1, h2x]
      refine ⟨?_, ?_, ?_⟩
      · rw [hcalls, hfs, hca]
        split <;> split <;> omega
      · intro hf
        rw [hcalls, hfs, hca]
        simp [hf]
      · intro _ hf hs
        rw [hcalls, hfs, hca]
        cases hfo : qb.FilterFunc with
        | none => exact absurd hfo hf
        | some f => simp [hfo, hs]

/-- C6 witness: the invocation-count theorem applied to a concrete
callback-free SELECT (zero invocations) and to a concrete SELECT with a
callback (two invocations). -/
theorem C6_callback_invocation_count_witness :
    (BuildI c6NoFuncQB).filterFuncCalls = 0 ∧
    (BuildI c6SelectQB).filterFuncCalls = 2 :=
  ⟨(C6_callback_invocation_count c6NoFuncQB).2.1 rfl,
   (C6_callback_invocation_count c6SelectQB).2.2 rfl
      (fun h => Option.noConfusion h) rfl⟩

/-- Appending for an unmatched name: when no entry matches the name
case-insensitively, the registry update appends one fresh entry at the
end and leaves the rest untouched. -/
theorem setColumnValueCore_no_match (cname : String) (value : Value) (sstr : Bool)
    (dv mtn : Value) :
    ∀ (values : List QueryValue), (∀ v ∈ values, eqFold cname v.column = false) →
      setColumnValueCore cname value sstr dv mtn values
        = values ++ [{ column := cname, value := value, defvalue := dv,
                       matchtonull := mtn, sqlstring := sstr,
                       skip := false, forcenull := false }] := by
  intro values
  induction values with
  | nil => intro _; rfl
  | cons v rest ih =>
      intro hall
      have hv : eqFold cname v.column = false := hall v (by simp)
      have hrest : ∀ u ∈ rest, eqFold cname u.column = false :=
        fun u hu => hall u (by simp [hu])
      simp [setColumnValueCore, hv, ih hrest]

/-- Update in place at the first match: entries before the first matching
entry are kept, the match is overwritten field-wise, everything after is
untouched. -/
theorem setColumnValueCore_match_split (cname : String) (value : Value) (sstr : Bool)
    (dv mtn : Value) :
    ∀ (pre : List QueryValue) (v : QueryValue) (post : List QueryValue),
      (∀ w ∈ pre, eqFold cname w.column = false) → eqFold cname v.column = true →
      setColumnValueCore cname value sstr dv mtn (pre ++ v :: post)
        = pre ++ { v with value := value, sqlstring := sstr, defvalue := dv,
                          matchtonull := mtn } :: post := by
  intro pre
  induction pre with
  | nil =>
      intro v post _ hm
      simp [setColumnValueCore, hm]
  | cons w pre' ih =>
      intro v post hpre hm
      have hw : eqFold cname w.column = false := hpre w (by simp)
      have hpre' : ∀ u ∈ pre', eqFold cname u.column = false :=
        fun u hu => hpre u (by simp [hu])
      simp [setColumnValueCore, hw, ih v post hpre' hm]

/-- After one registry update, some entry matches the name. -/
theorem setColumnValueCore_any (cname : String) (value : Value) (sstr : Bool)
    (dv mtn : Value) :
    ∀ (values : List QueryValue),
      (setColumnValueCore cname value sstr dv mtn values).any
        (fun w => eqFold cname w.column) = true := by
  intro values
  induction values with
  | nil => simp [setColumnValueCore, eqFold]
  | cons v rest ih =>
      cases hv : eqFold cname v.column with
      | true => simp [setColumnValueCore, hv]
      | false => simp [setColumnValueCore, hv, ih]

/-- When some entry matches, the registry update keeps the length. -/
theorem setColumnValueCore_length_of_any (cname : String) (value : Value) (sstr : Bool)
    (dv mtn : Value) :
    ∀ (values : List QueryValue),
      values.any (fun w => eqFold cname w.column) = true →
      (setColumnValueCore cname value sstr dv mtn values).length = values.length := by
  intro values
  induction values with
  | nil => intro h; simp at h
  | cons v rest ih =>
      intro h
      cases hv : eqFold cname v.column with
      | true => simp [setColumnValueCore, hv]
      | false =>
          have hrest : rest.any (fun w => eqFold cname w.column) = true := by
            simpa [hv] using h
          simp [setColumnValueCore, hv, ih hrest]

/-- C7: the value-setting operation looks its column name up
case-insensitively among the value entries: the first matching entry is
overwritten in place with all other entries unchanged, a fresh entry is
appended only when no entry matches, and consequently a second set for
the same name never duplicates (the length is stable). -/
theorem C7_set_column_value (cname : String) (value value2 : Value) (sstr sstr2 : Bool)
    (dv dv2 mtn mtn2 : Value) (values pre post : List QueryValue) (v : QueryValue) :
    ((∀ w ∈ pre, eqFold cname w.column = false) → eqFold cname v.column = true →
      setColumnValueCore cname value sstr dv mtn (pre ++ v :: post)
        = pre ++ { v with value := value, sqlstring := sstr, defvalue := dv,
                          matchtonull := mtn } :: post) ∧
    ((∀ w ∈ values, eqFold cname w.column = false) →
      setColumnValueCore cname value sstr dv mtn values
        = values ++ [{ column := cname, value := value, defvalue := dv,
                       matchtonull := mtn, sqlstring := sstr,
                       skip := false, forcenull := false }]) ∧
    ((setColumnValueCore cname value2 sstr2 dv2 mtn2
        (setColumnValueCore cname value sstr dv mtn values)).length
      = (setColumnValueCore cname value sstr dv mtn values).length) :=
  ⟨fun hpre hm => setColumnValueCore_match_split cname value sstr dv mtn pre v post hpre hm,
   fun hall => setColumnValueCore_no_match cname value sstr dv mtn values hall,
   setColumnValueCore_length_of_any cname value2 sstr2 dv2 mtn2 _
     (setColumnValueCore_any cname value sstr dv mtn values)⟩

/-- C7 witness: the registry theorem applied to concrete entry lists — an
in-place case-insensitive overwrite at the head, an append for an
unmatched name, and the length stability of setting twice. -/
theorem C7_set_column_value_witness :
    (setColumnValueCore "foo" (.vint 2) true .vnull .vnull
        ([] ++ mkVal "Foo" (.vint 1) :: [mkVal "bar" (.vint 9)])
      = [] ++ { mkVal "Foo" (.vint 1) with value := .vint 2, sqlstring := true, defvalue := .vnull, matchtonull := .vnull } :: [mkVal "bar" (.vint 9)]) ∧
    (setColumnValueCore "foo" (.vint 2) true .vnull .vnull [mkVal "bar" (.vint 9)]
      = [mkVal "bar" (.vint 9)]
        ++ [{ column := "foo", value := .vint 2, defvalue := .vnull, matchtonull := .vnull, sqlstring := true, skip := false, forcenull := false }]) ∧
    ((setColumnValueCore "foo" (.vstr "b") false .vnull .vnull
        (setColumnValueCore "foo" (.vint 2) true .vnull .vnull
          [mkVal "Foo" (.vint 1), mkVal "bar" (.vint 9)])).length
      = (setColumnValueCore "foo" (.vint 2) true .vnull .vnull
          [mkVal "Foo" (.vint 1), mkVal "bar" (.vint 9)]).length) :=
  ⟨(C7_set_column_value "foo" (.vint 2) (.vstr "b") true false .vnull .vnull .vnull .vnull
      [] [] [mkVal "bar" (.vint 9)] (mkVal "Foo" (.vint 1))).1
      (fun w hw => absurd hw (List.not_mem_nil w)) (by decide),
   (C7_set_column_value "foo" (.vint 2) (.vstr "b") true false .vnull .vnull .vnull .vnull
      [mkVal "bar" (.vint 9)] [] [] (mkVal "Foo" (.vint 1))).2.1 (by decide),
   (C7_set_column_value "foo" (.vint 2) (.vstr "b") true false .vnull .vnull .vnull .vnull
      [mkVal "Foo" (.vint 1), mkVal "bar" (.vint 9)] [] [] (mkVal "Foo" (.vint 1))).2.2⟩

/-- A non-empty string has positive length. -/
theorem strPosOfNe (s : String) (h : s ≠ "") : 0 < s.length := by
  cases s with
  | mk l =>
      cases l with
      | nil => exact absurd rfl h
      | cons c cs => simp [String.length]

/-- A string of positive length is non-empty. -/
theorem strNeOfPos (s : String) (h : 0 < s.length) : s ≠ "" := by
  intro he
  subst he
  simp [String.length] at h

/-- A DELETE iteration of the value loop changes only the processed-entry
accumulator. -/
theorem valueLoopStep_delete (ec : EngineConstants) (skipNil : Bool)
    (st : ValueLoopState) (v : QueryValue) :
    (valueLoopStep ec skipNil .DELETE st v).text = st.text ∧
    (valueLoopStep ec skipNil .DELETE st v).paramcnt = st.paramcnt := by
  simp [valueLoopStep]

/-- The whole DELETE value loop changes only the accumulator. -/
theorem valueLoop_delete_fold (ec : EngineConstants) (skipNil : Bool) :
    ∀ (vals : List QueryValue) (st : ValueLoopState),
      (vals.foldl (valueLoopStep ec skipNil .DELETE) st).text = st.text ∧
      (vals.foldl (valueLoopStep ec skipNil .DELETE) st).paramcnt = st.paramcnt := by
  intro vals
  induction vals with
  | nil => intro st; exact ⟨rfl, rfl⟩
  | cons v rest ih =>
      intro st
      have h := valueLoopStep_delete ec skipNil st v
      simp only [List.foldl_cons]
      exact ⟨by rw [(ih _).1, h.1], by rw [(ih _).2, h.2]⟩

/-- DELETE collects no argument from any value entry. -/
theorem valueArg_delete (v : QueryValue) : valueArg .DELETE v = [] := by
  simp [valueArg]

/-- DELETE collects no argument from the whole processed list. -/
theorem flatten_valueArg_delete (l : List QueryValue) :
    (l.map (valueArg .DELETE)).flatten = [] := by
  induction l with
  | nil => rfl
  | cons v rest ih => simp [valueArg_delete, ih]

/-- One filter iteration never shortens the clause text. -/
theorem filterStep_text_len (ec : EngineConstants) (st : JoinState) (f : QueryFilter) :
    st.text.length ≤ (filterStep ec st f).text.length := by
  unfold filterStep
  by_cases h : isNil f.value = false
  · simp [h, String.length_append]
    omega
  · simp [h, String.length_append]
    omega

/-- The filter fold never shortens the clause text. -/
theorem filterFold_text_len (ec : EngineConstants) :
    ∀ (fs : List QueryFilter) (st : JoinState),
      st.text.length ≤ (fs.foldl (filterStep ec) st).text.length := by
  intro fs
  induction fs with
  | nil => intro st; simp
  | cons f rest ih =>
      intro st
      simp only [List.foldl_cons]
      exact le_trans (filterStep_text_len ec st f) (ih _)

/-- A filter with a non-empty expression or a present value strictly
grows the clause text. -/
theorem filterStep_good_len (ec : EngineConstants) (st : JoinState) (f : QueryFilter)
    (h : f.expression ≠ "" ∨ isNil f.value = false) :
    st.text.length < (filterStep ec st f).text.length := by
  unfold filterStep
  by_cases hv : isNil f.value = false
  · have : (0 : Nat) < " = ".length := by decide
    simp [hv, String.length_append]
    omega
  · have hexp : f.expression ≠ "" := by
      rcases h with h | h
      · exact h
      · exact absurd h hv
    have hep := strPosOfNe _ hexp
    by_cases hc : f.containsvalue
    · simp [hv, hc, String.length_append]
      omega
    · simp [hv, hc, String.length_append]
      omega

/-- A good filter anywhere in the list makes the folded clause text
non-empty. -/
theorem filterFold_good_len (ec : EngineConstants) :
    ∀ (fs : List QueryFilter) (st : JoinState) (f : QueryFilter), f ∈ fs →
      (f.expression ≠ "" ∨ isNil f.value = false) →
      0 < (fs.foldl (filterStep ec) st).text.length := by
  intro fs
  induction fs with
  | nil => intro st f hf; exact absurd hf (List.not_mem_nil f)
  | cons g rest ih =>
      intro st f hf hgood
      simp only [List.foldl_cons]
      rcases List.mem_cons.mp hf with heq | hmem
      · subst heq
        calc 0 ≤ st.text.length := Nat.zero_le _
          _ < (filterStep ec st f).text.length := filterStep_good_len ec st f hgood
          _ ≤ _ := filterFold_text_len ec rest _
      · exact ih _ f hmem hgood

/-- The callback-fragment fold never shortens the text. -/
theorem fragsFold_text_len :
    ∀ (fbs : List String) (t cma : String),
      t.length ≤ ((fbs.foldl (fun (acc : String × String) fb =>
        (acc.1 ++ acc.2 ++ fb, "\r\t\t AND ")) (t, cma)).1).length := by
  intro fbs
  induction fbs with
  | nil => intro t cma; simp
  | cons fb rest ih =>
      intro t cma
      simp only [List.foldl_cons]
      calc t.length ≤ (t ++ cma ++ fb).length := by
            simp [String.length_append]
            omega
        _ ≤ _ := ih _ _

/-- A non-empty callback fragment makes the folded text non-empty. -/
theorem fragsFold_good_len :
    ∀ (fbs : List String) (t cma : String) (fb : String), fb ∈ fbs → fb ≠ "" →
      0 < ((fbs.foldl (fun (acc : String × String) fb =>
        (acc.1 ++ acc.2 ++ fb, "\r\t\t AND ")) (t, cma)).1).length := by
  intro fbs
  induction fbs with
  | nil => intro t cma fb hm; exact absurd hm (List.not_mem_nil fb)
  | cons g rest ih =>
      intro t cma fb hm hne
      simp only [List.foldl_cons]
      rcases List.mem_cons.mp hm with heq | hmem
      · subst heq
        calc 0 < fb.length := strPosOfNe fb hne
          _ ≤ (t ++ cma ++ fb).length := by simp [String.length_append]
          _ ≤ _ := fragsFold_text_len rest _ _
      · exact ih _ _ fb hmem hne

/-- A non-empty filter-section text yields a WHERE clause. -/
theorem whereClause_of_pos (qb : QueryBuilder)
    (h : 0 < (filterSection qb).1.length) : whereClause qb ≠ "" := by
  have hne : (filterSection qb).1 ≠ "" := strNeOfPos _ h
  simp only [whereClause, bne_iff_ne, ne_eq, hne, not_false_eq_true, if_true]
  apply strNeOfPos
  rw [String.length_append]
  have : (0:Nat) < ("\r\t WHERE " : String).length := by decide
  omega

/-- A DELETE build is invariant under erasing the registered columns and
values of the builder. -/
theorem build_delete_erase (qb : QueryBuilder) (hcmd : qb.CommandType = .DELETE) :
    Build { qb with columns := [], values := [] } = Build qb := by
  have hvl := valueLoop_delete_fold qb.dbEngineConstants qb.skipNilWriteColumn
    (qb.values.map normValue)
    { text := "", cma := "", paramcnt := qb.ParameterOffset, columncnt := 0, acc := [] }
  have htext : (valueLoop qb).text = "" := by
    unfold valueLoop
    rw [hcmd]
    exact hvl.1
  have hpc : (valueLoop qb).paramcnt = qb.ParameterOffset := by
    unfold valueLoop
    rw [hcmd]
    exact hvl.2
  have htext2 : (valueLoop { qb with columns := [], values := [] }).text = "" := rfl
  have hpc2 : (valueLoop { qb with columns := [], values := [] }).paramcnt
      = qb.ParameterOffset := rfl
  have hins : (qb.CommandType == CommandType.INSERT) = false := by
    rw [hcmd]
    rfl
  have hpost : postInsert { qb with columns := [], values := [] } = postInsert qb := by
    simp only [postInsert, hins, Bool.false_eq_true, if_false]
    rw [hpc, hpc2]
  have hfc : ∀ x, filterClause { qb with columns := [], values := [] } x = filterClause qb x :=
    fun _ => rfl
  have hfsec : filterSection { qb with columns := [], values := [] } = filterSection qb := by
    simp only [filterSection, hpost, hfc]
  have hwhere : whereClause { qb with columns := [], values := [] } = whereClause qb := by
    simp only [whereClause, hfsec]
  have hargs1 : ((valueLoop qb).acc.map (valueArg qb.CommandType)).flatten = [] := by
    rw [hcmd]
    exact flatten_valueArg_delete _
  have hraw : rawQuery { qb with columns := [], values := [] } = rawQuery qb := by
    unfold rawQuery
    rw [htext, htext2, hpost, hwhere]
  have hcargs : (collectArgs { qb with columns := [], values := [] }).1
      = (collectArgs qb).1 := by
    unfold collectArgs
    rw [hfsec, hargs1]
    rfl
  have hne2 : ¬(qb.CommandType ≠ CommandType.DELETE) := fun hx => hx hcmd
  have hschem : schemaFor { qb with columns := [], values := [] } = schemaFor qb := rfl
  by_cases h1 : qb.Source = ""
  · simp [Build, BuildI, h1]
  · simp only [Build, BuildI, h1, hne2, hschem, List.length_nil, and_false, ne_eq,
      not_false_eq_true, if_false, ite_false, ite_true, false_and]
    rw [hraw, hcargs]

/-- An INSERT build's text is invariant under erasing the filters and the
callback: INSERT never emits a WHERE clause. -/
theorem build_insert_no_filter_text (qb : QueryBuilder) (hcmd : qb.CommandType = .INSERT) :
    (Build { qb with Filter := [], FilterFunc := none }).1 = (Build qb).1 := by
  have hns : isSUD qb.CommandType = false := by rw [hcmd]; rfl
  have hw1 : whereClause qb = "" := by
    simp [whereClause, filterSection, hns]
  have hw2 : whereClause { qb with Filter := [], FilterFunc := none } = "" := by
    simp [whereClause, filterSection, hns]
  have hraw : rawQuery { qb with Filter := [], FilterFunc := none } = rawQuery qb := by
    unfold rawQuery
    rw [hw1, hw2]
    rfl
  by_cases h1 : qb.Source = ""
  · simp [Build, BuildI, h1]
  · by_cases h2 : qb.columns.length = 0 ∧ qb.CommandType ≠ .DELETE
    · simp [Build, BuildI, h1, h2]
    · simp only [Build, BuildI, h1, h2, if_neg, if_false, not_false_eq_true]
      rw [hraw]
      rfl

/-- The callback fragments only extend the clause text of the built-in
filters. -/
theorem filterClause_text_len (qb : QueryBuilder) (pc : Int) :
    (filterFold qb pc).text.length ≤ (filterClause qb pc).1.length := by
  unfold filterClause
  cases hff : qb.FilterFunc with
  | none => simp
  | some ff => simpa using fragsFold_text_len _ _ _

/-- A non-empty callback fragment makes the clause text non-empty. -/
theorem filterClause_frag_len (qb : QueryBuilder) (pc : Int)
    (ff : Int → String → Bool → List String × List Value)
    (hff : qb.FilterFunc = some ff) (fb : String)
    (hmem : fb ∈ (ff (filterFold qb pc).paramcnt qb.dbEngineConstants.ParameterChar
      qb.dbEngineConstants.ParameterInSequence).1)
    (hne : fb ≠ "") :
    0 < (filterClause qb pc).1.length := by
  unfold filterClause
  rw [hff]
  simpa using fragsFold_good_len _ _ _ fb hmem hne

/-- C8 (amended): a DELETE build never emits a column list or VALUES
clause — erasing every registered column and value leaves its whole
output unchanged; an INSERT build never emits a WHERE clause — erasing
its filters and callback leaves its text unchanged; and a
SELECT/UPDATE/DELETE build emits a WHERE clause exactly when the rendered
filter text is non-empty: in particular whenever some filter has a
non-empty expression or a present value, or the callback contributes a
non-empty fragment, and never when there are no filters and no
callback. -/
theorem C8_command_kind_shape (qb : QueryBuilder) :
    (qb.CommandType = .DELETE →
      Build { qb with columns := [], values := [] } = Build qb) ∧
    (qb.CommandType = .INSERT →
      (Build { qb with Filter := [], FilterFunc := none }).1 = (Build qb).1) ∧
    (isSUD qb.CommandType = true →
      ((∃ f ∈ qb.Filter, f.expression ≠ "" ∨ isNil (realValue f.value) = false) →
        whereClause qb ≠ "") ∧
      (qb.Filter = [] ∧ qb.FilterFunc = none → whereClause qb = "") ∧
      (∀ ff, qb.FilterFunc = some ff →
        (∃ fb ∈ (ff (filterFold qb (postInsert qb).2).paramcnt
            qb.dbEngineConstants.ParameterChar qb.dbEngineConstants.ParameterInSequence).1,
          fb ≠ "") →
        whereClause qb ≠ "")) := by
  refine ⟨build_delete_erase qb, build_insert_no_filter_text qb, ?_⟩
  intro hsud
  have hsec : filterSection qb = filterClause qb (postInsert qb).2 := by
    simp [filterSection, hsud]
  refine ⟨?_, ?_, ?_⟩
  · rintro ⟨f, hf, hgood⟩
    apply whereClause_of_pos
    rw [hsec]
    have hmem : normFilter f ∈ qb.Filter.map normFilter := List.mem_map_of_mem _ hf
    have hgood2 : (normFilter f).expression ≠ "" ∨ isNil (normFilter f).value = false := hgood
    have hpos : 0 < (filterFold qb (postInsert qb).2).text.length := by
      unfold filterFold
      exact filterFold_good_len qb.dbEngineConstants _ _ _ hmem hgood2
    exact lt_of_lt_of_le hpos (filterClause_text_len qb _)
  · rintro ⟨hF, hFF⟩
    simp [whereClause, filterSection, filterClause, filterFold, hsud, hF, hFF]
  · rintro ff hff ⟨fb, hfb, hfbne⟩
    apply whereClause_of_pos
    rw [hsec]
    exact filterClause_frag_len qb _ ff hff fb hfb hfbne

/-- C8 witness: the shape theorem applied to a concrete DELETE with
registered columns/values, a concrete INSERT with filters and a
callback, a concrete SELECT with one valued filter, a concrete SELECT
without filters, and a concrete SELECT whose callback contributes one
fragment. -/
theorem C8_command_kind_shape_witness :
    Build { c8DeleteFullQB with columns := [], values := [] } = Build c8DeleteFullQB ∧
    (Build { c8InsertQB with Filter := [], FilterFunc := none }).1 = (Build c8InsertQB).1 ∧
    whereClause c8SelectQB ≠ "" ∧
    whereClause c8NoFilterQB = "" ∧
    whereClause c8CallbackQB ≠ "" :=
  ⟨(C8_command_kind_shape c8DeleteFullQB).1 rfl,
   (C8_command_kind_shape c8InsertQB).2.1 rfl,
   ((C8_command_kind_shape c8SelectQB).2.2 rfl).1 (by decide),
   ((C8_command_kind_shape c8NoFilterQB).2.2 rfl).2.1 ⟨rfl, rfl⟩,
   ((C8_command_kind_shape c8CallbackQB).2.2 rfl).2.2
     (fun _ _ _ => (["x = 1"], [.vint 9])) rfl (by decide)⟩

/-- The token reader only ever returns a proper suffix remainder. -/
theorem tryToken_shrink :
    ∀ (l : List Char) (r : List Char × List Char), tryToken l = some r → r.2.length < l.length := by
  intro l
  induction l with
  | nil => intro r h; exact Option.noConfusion h
  | cons c rest ih =>
      intro r h
      simp only [tryToken] at h
      by_cases hc : c = '\x7d'
      · rw [if_pos hc] at h
        cases h
        simp
      · rw [if_neg hc] at h
        by_cases ht : isTokenChar c = true
        · rw [if_pos ht] at h
          cases he : tryToken rest with
          | none => rw [he] at h; exact Option.noConfusion h
          | some r0 =>
              rw [he] at h
              cases h
              exact Nat.lt_succ_of_lt (ih r0 he)
        · rw [if_neg ht] at h
          exact Option.noConfusion h

/-- Fuel does not matter once it bounds the input length. -/
theorem interpCoreF_fuel (q : List Char) :
    ∀ (f1 f2 : Nat) (l : List Char), l.length ≤ f1 → l.length ≤ f2 →
      interpCoreF q f1 l = interpCoreF q f2 l := by
  intro f1
  induction f1 with
  | zero =>
      intro f2 l h1 _
      have hl : l = [] := List.length_eq_zero.mp (Nat.le_zero.mp h1)
      subst hl
      cases f2 <;> rfl
  | succ n ih =>
      intro f2 l h1 h2
      cases l with
      | nil => cases f2 <;> rfl
      | cons c rest =>
          cases f2 with
          | zero => simp at h2
          | succ m =>
              have hr : rest.length ≤ n := Nat.le_of_succ_le_succ (by simpa using h1)
              have hr2 : rest.length ≤ m := Nat.le_of_succ_le_succ (by simpa using h2)
              simp only [interpCoreF]
              by_cases hc : c = '\x7b'
              · rw [if_pos hc, if_pos hc]
                cases ht : tryToken rest with
                | none => rw [ih m rest hr hr2]
                | some r =>
                    have hb := tryToken_shrink rest r ht
                    show expandTemplate ('\x7b' :: r.1 ++ ['\x7d']) r.1 q ++ interpCoreF q n r.2
                      = expandTemplate ('\x7b' :: r.1 ++ ['\x7d']) r.1 q ++ interpCoreF q m r.2
                    rw [ih m r.2 (le_of_lt (lt_of_lt_of_le hb hr))
                      (le_of_lt (lt_of_lt_of_le hb hr2))]
              · rw [if_neg hc, if_neg hc, ih m rest hr hr2]

/-- A failed run check means the token reader fails. -/
theorem tryToken_none_of_checkRun :
    ∀ (l : List Char), checkRun l = false → tryToken l = none := by
  intro l
  induction l with
  | nil => intro _; rfl
  | cons c rest ih =>
      intro h
      simp only [checkRun] at h
      simp only [tryToken]
      by_cases hc : c = '\x7d'
      · rw [if_pos hc] at h
        exact Bool.noConfusion h
      · rw [if_neg hc] at h
        rw [if_neg hc]
        by_cases ht : isTokenChar c = true
        · rw [if_pos ht] at h
          rw [if_pos ht, ih h]
        · rw [if_neg ht]

/-- A failed run check means the token reader also fails on any extension
continuing with an opening brace (which is outside the character class). -/
theorem tryToken_append_none (z : List Char) :
    ∀ (l : List Char), checkRun l = false → tryToken (l ++ '\x7b' :: z) = none := by
  intro l
  induction l with
  | nil =>
      intro _
      show tryToken ('\x7b' :: z) = none
      simp only [tryToken]
      rw [if_neg (by decide), if_neg (by decide)]
  | cons c rest ih =>
      intro h
      simp only [checkRun] at h
      show tryToken (c :: (rest ++ '\x7b' :: z)) = none
      simp only [tryToken]
      by_cases hc : c = '\x7d'
      · rw [if_pos hc] at h
        exact Bool.noConfusion h
      · rw [if_neg hc] at h
        rw [if_neg hc]
        by_cases ht : isTokenChar c = true
        · rw [if_pos ht] at h
          rw [if_pos ht, ih h]
        · rw [if_neg ht]

/-- The token reader consumes exactly a class-character run terminated by
the closing brace, returning the bare body and the remainder. -/
theorem tryToken_token (b : List Char) :
    ∀ (x : List Char), x.all isTokenChar = true →
      tryToken (x ++ '\x7d' :: b) = some (x, b) := by
  intro x
  induction x with
  | nil => intro _; rfl
  | cons c x' ih =>
      intro hall
      simp only [List.all_cons, Bool.and_eq_true] at hall
      obtain ⟨hc, hx⟩ := hall
      have hcne : ¬(c = '\x7d') := by
        intro hcc
        rw [hcc] at hc
        exact absurd hc (by decide)
      show tryToken (c :: (x' ++ '\x7d' :: b)) = some (c :: x', b)
      simp only [tryToken]
      rw [if_neg hcne, if_pos hc, ih hx]

/-- A concatenation of dollar-free lists is dollar-free. -/
theorem contains_dollar_append (l1 l2 : List Char)
    (h1 : l1.contains '$' = false) (h2 : l2.contains '$' = false) :
    (l1 ++ l2).contains '$' = false := by
  induction l1 with
  | nil => simpa using h2
  | cons c l ih =>
      simp only [List.contains_cons, Bool.or_eq_false_iff] at h1
      simp only [List.cons_append, List.contains_cons, Bool.or_eq_false_iff]
      exact ⟨h1.1, ih h1.2⟩

/-- Expanding a template that is a dollar-free prefix followed by a
reference to group 1 copies the prefix and substitutes the group text. -/
theorem expandTemplate_dollar_free (g0 g1 : List Char) :
    ∀ (p : List Char), p.contains '$' = false →
      expandTemplate g0 g1 (p ++ ['$', '1']) = p ++ g1 := by
  intro p
  induction p with
  | nil =>
      intro _
      show expandTemplateF g0 g1 2 ['$', '1'] = [] ++ g1
      simp [expandTemplateF, extractRef, nameRun, refText, isNameChar]
  | cons c p' ih =>
      intro h
      simp only [List.contains_cons, Bool.or_eq_false_iff] at h
      obtain ⟨h1, h2⟩ := h
      have hc : ¬(c = '$') := by
        intro hh
        rw [hh] at h1
        simp at h1
      show expandTemplateF g0 g1 ((c :: (p' ++ ['$', '1'])).length) (c :: (p' ++ ['$', '1']))
        = (c :: p') ++ g1
      simp only [List.length_cons, expandTemplateF]
      rw [if_neg hc]
      have hih := ih h2
      show c :: expandTemplate g0 g1 (p' ++ ['$', '1']) = (c :: p') ++ g1
      rw [hih, List.cons_append]

/-- The scan leaves a token-free input unchanged. -/
theorem interpCoreF_token_free (q : List Char) :
    ∀ (f : Nat) (l : List Char), l.length ≤ f → containsToken l = false →
      interpCoreF q f l = l := by
  intro f
  induction f with
  | zero =>
      intro l h1 _
      have hl : l = [] := List.length_eq_zero.mp (Nat.le_zero.mp h1)
      subst hl
      rfl
  | succ n ih =>
      intro l h1 h2
      cases l with
      | nil => rfl
      | cons c rest =>
          have hr : rest.length ≤ n := Nat.le_of_succ_le_succ (by simpa using h1)
          simp only [containsToken, Bool.or_eq_false_iff] at h2
          obtain ⟨h2a, h2b⟩ := h2
          simp only [interpCoreF]
          by_cases hc : c = '\x7b'
          · rw [if_pos hc]
            rw [if_pos hc] at h2a
            rw [tryToken_none_of_checkRun rest h2a]
            rw [ih rest hr h2b]
          · rw [if_neg hc, ih rest hr h2b]

/-- When the replacement template is a dollar-free prefix followed by a
reference to group 1, the scan rewrites a token preceded by token-free
text to that prefix and the bare body, and continues behind the token. -/
theorem interpCoreF_token (p : List Char) (hp : p.contains '$' = false) :
    ∀ (f : Nat) (a x b : List Char),
      (a ++ '\x7b' :: (x ++ '\x7d' :: b)).length ≤ f →
      containsToken a = false → x.all isTokenChar = true →
      interpCoreF (p ++ ['$', '1']) f (a ++ '\x7b' :: (x ++ '\x7d' :: b))
        = a ++ p ++ x ++ interpCore (p ++ ['$', '1']) b := by
  intro f
  induction f with
  | zero =>
      intro a x b h1 _ _
      exfalso
      simp [List.length_append] at h1
  | succ n ih =>
      intro a x b h1 h2 h3
      cases a with
      | nil =>
          show interpCoreF (p ++ ['$', '1']) (n + 1) ('\x7b' :: (x ++ '\x7d' :: b))
            = [] ++ p ++ x ++ interpCore (p ++ ['$', '1']) b
          simp only [interpCoreF, if_true]
          rw [tryToken_token b x h3]
          have hbl : b.length ≤ n := by
            simp [List.length_append] at h1
            omega
          show expandTemplate ('\x7b' :: x ++ ['\x7d']) x (p ++ ['$', '1'])
              ++ interpCoreF (p ++ ['$', '1']) n b
            = [] ++ p ++ x ++ interpCore (p ++ ['$', '1']) b
          rw [expandTemplate_dollar_free _ _ p hp]
          rw [interpCoreF_fuel (p ++ ['$', '1']) n b.length b hbl (le_refl _)]
          simp only [List.nil_append, List.append_assoc]
          rfl
      | cons c a' =>
          have hr : (a' ++ '\x7b' :: (x ++ '\x7d' :: b)).length ≤ n :=
            Nat.le_of_succ_le_succ (by simpa using h1)
          simp only [containsToken, Bool.or_eq_false_iff] at h2
          obtain ⟨h2a, h2b⟩ := h2
          show interpCoreF (p ++ ['$', '1']) (n + 1) (c :: (a' ++ '\x7b' :: (x ++ '\x7d' :: b)))
            = (c :: a') ++ p ++ x ++ interpCore (p ++ ['$', '1']) b
          simp only [interpCoreF]
          by_cases hc : c = '\x7b'
          · rw [if_pos hc]
            rw [if_pos hc] at h2a
            rw [tryToken_append_none (x ++ '\x7d' :: b) a' h2a]
            rw [ih a' x b hr h2b h3]
            simp
          · rw [if_neg hc]
            rw [ih a' x b hr h2b h3]
            simp

/-- C9 counterexample: the claim's unrestricted "each token becomes
qualifier-dot-body" fails for a qualifier containing a dollar sign,
because the qualifier is part of ReplaceAllString's replacement template
and undergoes dollar-reference expansion.  With the qualifier my$schema,
interpolating a statement consisting of a single tb token yields my.tb
(the reference $schema names no group and expands to nothing), not
my$schema.tb. -/
theorem C9_dollar_qualifier_expanded :
    InterpolateTable "\x7btb\x7d" "my$schema" = "my.tb" ∧
    InterpolateTable "\x7btb\x7d" "my$schema" ≠ "my$schema.tb" := by
  decide

/-- C9 (amended): interpolation with any qualifier leaves a token-free
statement unchanged; provided the qualifier contains no dollar sign (so
the replacement template expands to literal text before the group-1
reference), a brace-delimited token of class characters preceded by
token-free text is reduced to its bare body when the qualifier is empty,
and to the dot-suffixed qualifier followed by the body when it is
non-empty, with the scan continuing behind the token.  A qualifier
containing a dollar sign is instead subject to template expansion. -/
theorem C9_interpolate_tokens (sql qual : String) (a x b : List Char) :
    (containsToken sql.data = false → InterpolateTable sql qual = sql) ∧
    (qual.data.contains '$' = false →
      containsToken a = false → x.all isTokenChar = true →
      (InterpolateTable ⟨a ++ '\x7b' :: (x ++ '\x7d' :: b)⟩ qual).data
        = a ++ (qualPref qual).data ++ x ++ interpCore (templateOf qual) b) ∧
    qualPref "" = "" ∧
    (qual ≠ "" → qualPref qual = qual ++ ".") := by
  refine ⟨?_, ?_, rfl, ?_⟩
  · intro h
    have hh : interpCore (templateOf qual) sql.data = sql.data :=
      interpCoreF_token_free _ _ _ (le_refl _) h
    show (⟨interpCore (templateOf qual) sql.data⟩ : String) = sql
    rw [hh]
  · intro hd h2 h3
    have hq : (qualPref qual).data.contains '$' = false := by
      by_cases h : qual = ""
      · subst h
        decide
      · have hne : (qual != "") = true := by
          simp only [bne_iff_ne, ne_eq]
          exact h
        simp only [qualPref, if_pos hne]
        rw [String.data_append]
        exact contains_dollar_append qual.data ".".data hd (by decide)
    show interpCore (templateOf qual) (a ++ '\x7b' :: (x ++ '\x7d' :: b))
      = a ++ (qualPref qual).data ++ x ++ interpCore (templateOf qual) b
    exact interpCoreF_token (qualPref qual).data hq _ a x b (le_refl _) h2 h3
  · intro h
    simp [qualPref, h]

/-- C9 witness: the interpolation theorem applied to a concrete token-free
statement, to a concrete statement with one token under a non-empty
dollar-free qualifier, and to the concrete qualifier prefix. -/
theorem C9_interpolate_tokens_witness :
    InterpolateTable "SELECT 1;" "dbo" = "SELECT 1;" ∧
    (InterpolateTable ⟨"FROM ".data ++ '\x7b' :: ("tb".data ++ '\x7d' :: " WHERE x = 1".data)⟩
        "dbo").data
      = "FROM ".data ++ (qualPref "dbo").data ++ "tb".data
        ++ interpCore (templateOf "dbo") " WHERE x = 1".data ∧
    qualPref "dbo" = "dbo" ++ "." :=
  ⟨(C9_interpolate_tokens "SELECT 1;" "dbo" [] [] []).1 (by decide),
   (C9_interpolate_tokens "" "dbo" "FROM ".data "tb".data " WHERE x = 1".data).2.1
     (by decide) (by decide) (by decide),
   (C9_interpolate_tokens "" "dbo" [] [] []).2.2.2 (by decide)⟩

end QB
